import Mathlib

/-!
Verification of the determinagent core against its specification.

The determinagent package itself (adapters, sessions, agent, parsers) is not
present in this source tree; only its test suite, scripts and the demo flow
are.  The definitions below are therefore shallow embeddings modelled from
the specification's description of each component (doc comments say what is
modelled), kept consistent with the expectations recorded in the test suite.
-/

namespace Determinagent

/-! ## A small JSON value model and decoder

Modelled from the spec: the core relies on Python's `json.loads` to decode
provider output (§4.1 Variant C, §6) and to extract structured payloads
(§4.4).  The module `determinagent.adapters`/`determinagent.agent` that calls
it is missing from the tree, so JSON decoding is modelled here: values are
null / booleans / integers / strings / arrays / objects.  (Fractional and
exponent number forms, and unicode escapes, are not needed by any claim and
are modelled as decode failures.)
-/

inductive Json where
  | null : Json
  | bool (b : Bool) : Json
  | num (n : Int) : Json
  | str (s : String) : Json
  | arr (elems : List Json) : Json
  | obj (fields : List (String × Json)) : Json
deriving Repr

/-- Whitespace characters recognised by the JSON grammar (and by Python's
`str.strip`). -/
def isWsChar (c : Char) : Bool :=
  c = ' ' || c = '\n' || c = '\t' || c = '\r'

/-- Drop leading JSON whitespace. -/
def skipWs : List Char → List Char
  | [] => []
  | c :: cs => if isWsChar c then skipWs cs else c :: cs

/-- Parse the body of a JSON string (the opening quote already consumed),
returning the decoded characters and the remaining input. -/
def parseStringBody : List Char → Option (List Char × List Char)
  | [] => none
  | '"' :: rest => some ([], rest)
  | '\\' :: e :: rest =>
    let dec : Option Char :=
      match e with
      | '"' => some '"'
      | '\\' => some '\\'
      | '/' => some '/'
      | 'n' => some '\n'
      | 't' => some '\t'
      | 'r' => some '\r'
      | 'b' => some (Char.ofNat 8)
      | 'f' => some (Char.ofNat 12)
      | _ => none
    match dec with
    | none => none
    | some c =>
      match parseStringBody rest with
      | none => none
      | some (s, rest2) => some (c :: s, rest2)
  | c :: rest =>
    match parseStringBody rest with
    | none => none
    | some (s, rest2) => some (c :: s, rest2)

/-- Numeric value of a list of decimal digits. -/
def digitsVal (ds : List Char) : Nat :=
  ds.foldl (fun n c => 10 * n + (c.toNat - '0'.toNat)) 0

/-- Split off a leading run of decimal digits. -/
def splitDigits (cs : List Char) : List Char × List Char :=
  (cs.takeWhile Char.isDigit, cs.dropWhile Char.isDigit)

/-- Parse a JSON integer (optional minus sign, then digits).  A following
`.`, `e` or `E` (a float form) is modelled as a decode failure. -/
def parseJsonNumber (cs : List Char) : Option (Int × List Char) :=
  match cs with
  | '-' :: rest =>
    match splitDigits rest with
    | ([], _) => none
    | (ds, rest2) =>
      match rest2 with
      | '.' :: _ => none
      | 'e' :: _ => none
      | 'E' :: _ => none
      | _ => some (-(digitsVal ds : Int), rest2)
  | _ =>
    match splitDigits cs with
    | ([], _) => none
    | (ds, rest2) =>
      match rest2 with
      | '.' :: _ => none
      | 'e' :: _ => none
      | 'E' :: _ => none
      | _ => some ((digitsVal ds : Int), rest2)

mutual

/-- Fuel-indexed parser for one JSON value (leading whitespace allowed). -/
def parseVal : Nat → List Char → Option (Json × List Char)
  | 0, _ => none
  | fuel + 1, cs =>
    match skipWs cs with
    | 'n' :: 'u' :: 'l' :: 'l' :: rest => some (.null, rest)
    | 't' :: 'r' :: 'u' :: 'e' :: rest => some (.bool true, rest)
    | 'f' :: 'a' :: 'l' :: 's' :: 'e' :: rest => some (.bool false, rest)
    | '"' :: rest =>
      match parseStringBody rest with
      | none => none
      | some (s, rest2) => some (.str (String.mk s), rest2)
    | '{' :: rest =>
      match skipWs rest with
      | '}' :: rest2 => some (.obj [], rest2)
      | rest2 =>
        match parseFields fuel rest2 with
        | none => none
        | some (fs, rest3) => some (.obj fs, rest3)
    | '[' :: rest =>
      match skipWs rest with
      | ']' :: rest2 => some (.arr [], rest2)
      | rest2 =>
        match parseElems fuel rest2 with
        | none => none
        | some (es, rest3) => some (.arr es, rest3)
    | other =>
      match parseJsonNumber other with
      | none => none
      | some (n, rest) => some (.num n, rest)

/-- Fuel-indexed parser for a non-empty `"key": value` field list, up to and
including the closing brace. -/
def parseFields : Nat → List Char → Option (List (String × Json) × List Char)
  | 0, _ => none
  | fuel + 1, cs =>
    match skipWs cs with
    | '"' :: rest =>
      match parseStringBody rest with
      | none => none
      | some (k, rest2) =>
        match skipWs rest2 with
        | ':' :: rest3 =>
          match parseVal fuel rest3 with
          | none => none
          | some (v, rest4) =>
            match skipWs rest4 with
            | ',' :: rest5 =>
              match parseFields fuel rest5 with
              | none => none
              | some (fs, rest6) => some ((String.mk k, v) :: fs, rest6)
            | '}' :: rest5 => some ([(String.mk k, v)], rest5)
            | _ => none
        | _ => none
    | _ => none

/-- Fuel-indexed parser for a non-empty array element list, up to and
including the closing bracket. -/
def parseElems : Nat → List Char → Option (List Json × List Char)
  | 0, _ => none
  | fuel + 1, cs =>
    match parseVal fuel cs with
    | none => none
    | some (v, rest) =>
      match skipWs rest with
      | ',' :: rest2 =>
        match parseElems fuel rest2 with
        | none => none
        | some (es, rest3) => some (v :: es, rest3)
      | ']' :: rest2 => some ([v], rest2)
      | _ => none

end

/-- Decode a complete JSON document: one value with only whitespace around
it.  Models Python's `json.loads` on the value forms the core uses. -/
def jsonDecode (cs : List Char) : Option Json :=
  match parseVal (2 * cs.length + 2) cs with
  | some (v, rest) => if skipWs rest = [] then some v else none
  | none => none

/-- Look up a field of a decoded JSON object. -/
def lookupField (fields : List (String × Json)) (k : String) : Option Json :=
  match fields.find? (fun p => p.1 == k) with
  | some p => some p.2
  | none => none

namespace GeminiAdapter

/-- Modelled from the spec: `determinagent.adapters.gemini.GeminiAdapter.parse_output`
is missing from the tree.  Spec §4.1 Variant C: "Output parsing first
attempts to decode a JSON object and return its `response` field; if
decoding fails, falls back to returning the raw text; if decoding succeeds
but the field is absent, returns the raw JSON text unchanged."  A decoded
top-level value that is not an object, or a `response` value that is not a
string, is likewise handed back as the raw text. -/
def parse_output (raw : String) : String :=
  match jsonDecode raw.data with
  | some (.obj fields) =>
    match lookupField fields "response" with
    | some (.str s) => s
    | some _ => raw
    | none => raw
  | _ => raw

end GeminiAdapter

/-! ## Session Tracker

Modelled from the spec: `determinagent.sessions.SessionManager` is missing
from the tree.  Spec §3 and §4.2: a Session is {provider, session_id,
call_count}; `get_session_flags` consults either the explicit override or
`call_count == 0` to decide mode, then delegates to the provider's flag
rule (claude returns `["--session-id", id]` / `["-r", id]`; copilot, gemini
and codex — and, per the test suite, any unknown provider — return an empty
flag list regardless of mode); `save_exchange` increments call_count and
does nothing else; `reset` installs a fresh id and zeroes call_count. -/

structure Session where
  provider : String
  sessionId : String
  callCount : Nat
deriving DecidableEq, Repr

/-- Modelled from the spec: `SessionManager.get_session_flags`. -/
def getSessionFlags (s : Session) (explicitFirstCall : Option Bool) : List String :=
  let isFirst := explicitFirstCall.getD (s.callCount == 0)
  if s.provider == "claude" then
    if isFirst then ["--session-id", s.sessionId] else ["-r", s.sessionId]
  else []

/-- Modelled from the spec: `SessionManager.save_exchange` — increments the
call counter; no other bookkeeping (no transcript retention). -/
def saveExchange (s : Session) : Session :=
  { s with callCount := s.callCount + 1 }

/-- Modelled from the spec: `SessionManager.reset_session` — replaces
session_id with a freshly generated value and zeroes call_count. -/
def resetSession (s : Session) (freshId : String) : Session :=
  { s with sessionId := freshId, callCount := 0 }

/-! ## Execution/Retry Engine

Modelled from the spec: `determinagent.agent.UnifiedAgent.send` is missing
from the tree.  Spec §4.3/§7: attempts are bounded by `max_retries + 1`;
per attempt the adapter pipeline either yields parsed text, raises a
classified taxonomy error, or raises an unclassified exception.  Empty text
on a success exit is a retryable failure; a classified SessionError makes
the engine reset the Session before the next attempt; on exhaustion the
last taxonomy error is re-raised unchanged while an unclassified exception
is wrapped in an ExecutionError whose message includes the attempt count;
on any successful attempt `save_exchange` runs once before returning.

The nondeterministic adapter pipeline is embedded as a script: a list of
`AttemptResult`s consumed one per attempt (mirroring the mocked
`side_effect` sequences the test suite drives the engine with).  Fresh
session ids for resets come from a caller-supplied supply `fresh`. -/

/-- The closed error taxonomy of `determinagent.exceptions` (spec §7). -/
inductive ErrKind where
  | providerNotAvailable
  | providerAuthError
  | rateLimitExceeded
  | sandboxViolation
  | sessionError
  | executionError
  | parseError
  | validationError
deriving DecidableEq, Repr

/-- One scripted outcome of the build→spawn→parse→classify pipeline. -/
inductive AttemptResult where
  | success (text : String)
  | failure (kind : ErrKind) (msg : String)
  | unexpected (msg : String)
deriving DecidableEq, Repr

/-- What `send` ultimately raises: a taxonomy error re-raised unchanged, or
an unclassified exception wrapped in an ExecutionError message. -/
inductive SendError where
  | taxonomy (kind : ErrKind) (msg : String)
  | wrapped (msg : String)
deriving DecidableEq, Repr

/-- Everything observable about one `send` call: its result, how many
pipeline attempts ran, how many times `save_exchange` ran, and the final
session state. -/
structure SendOutcome where
  result : Except SendError String
  attempts : Nat
  saves : Nat
  session : Session
deriving Repr

/-- Modelled from the spec: the retry loop of `UnifiedAgent.send` (§4.3),
one recursive step per attempt.  `attemptIdx` attempts have already run;
`resets` counts session resets performed so far (indexing the fresh-id
supply).  An empty script means the pipeline produced nothing further; it
is modelled as an empty-response failure with no extra attempt consumed. -/
def sendAux (fresh : Nat → String) (maxAttempts : Nat) :
    List AttemptResult → Nat → Nat → Session → SendOutcome
  | [], attemptIdx, _, st =>
    { result := .error (.taxonomy .executionError "Empty response"),
      attempts := attemptIdx, saves := 0, session := st }
  | o :: rest, attemptIdx, resets, st =>
    match o with
    | .success t =>
      if t ≠ "" then
        { result := .ok t, attempts := attemptIdx + 1, saves := 1,
          session := saveExchange st }
      else if maxAttempts ≤ attemptIdx + 1 then
        { result := .error (.taxonomy .executionError "Empty response"),
          attempts := attemptIdx + 1, saves := 0, session := st }
      else
        sendAux fresh maxAttempts rest (attemptIdx + 1) resets st
    | .failure kind msg =>
      if maxAttempts ≤ attemptIdx + 1 then
        { result := .error (.taxonomy kind msg),
          attempts := attemptIdx + 1, saves := 0, session := st }
      else if kind = .sessionError then
        sendAux fresh maxAttempts rest (attemptIdx + 1) (resets + 1)
          (resetSession st (fresh resets))
      else
        sendAux fresh maxAttempts rest (attemptIdx + 1) resets st
    | .unexpected msg =>
      if maxAttempts ≤ attemptIdx + 1 then
        { result := .error (.wrapped ("Unexpected error after " ++
            toString maxAttempts ++ " attempts: " ++ msg)),
          attempts := attemptIdx + 1, saves := 0, session := st }
      else
        sendAux fresh maxAttempts rest (attemptIdx + 1) resets st

/-- Modelled from the spec: `UnifiedAgent.send` with a scripted pipeline
(`outcomes`), a fresh-id supply for session resets, a retry budget and the
agent's owned session. -/
def send (fresh : Nat → String) (outcomes : List AttemptResult)
    (maxRetries : Nat) (st : Session) : SendOutcome :=
  sendAux fresh (maxRetries + 1) outcomes 0 0 st

/-- A pipeline outcome the retry loop does not return from: a classified
or unclassified error, or a success whose parsed text is empty. -/
def isRetryable : AttemptResult → Bool
  | .success t => t == ""
  | .failure _ _ => true
  | .unexpected _ => true

/-- The error `send` surfaces when its final attempt yields the given
outcome: a taxonomy error re-raised unchanged, an unclassified exception
wrapped with the attempt count (`maxAttempts`), no error for a success. -/
def finalError (maxAttempts : Nat) : AttemptResult → Option SendError
  | .success _ => none
  | .failure kind msg => some (.taxonomy kind msg)
  | .unexpected msg =>
    some (.wrapped ("Unexpected error after " ++ toString maxAttempts ++
      " attempts: " ++ msg))

/-! ## Structured-Text Extractor

Modelled from the spec: `UnifiedAgent._extract_json` is missing from the
tree.  Spec §4.4: strategies tried in order, first success wins — (1) the
entire trimmed text as one JSON object, (2) the interior of a fenced code
block (optionally tagged `json`) as JSON, (3) the first top-level
balanced-brace region under a greedy match (from the first `{` to the last
`}`, as the test suite's `{.*}` regex comment records) as JSON.  All
three failing raises ParseError, embedded here as `none`. -/

/-- Python `str.strip` on a character list. -/
def trimChars (cs : List Char) : List Char :=
  ((cs.dropWhile isWsChar).reverse.dropWhile isWsChar).reverse

/-- The backtick character of a markdown fence. -/
def fenceChar : Char := Char.ofNat 96

/-- Drop input through the first three-backtick fence, returning what
follows it, or `none` when no fence occurs. -/
def dropThroughFence : List Char → Option (List Char)
  | c1 :: c2 :: c3 :: rest =>
    if c1 = fenceChar ∧ c2 = fenceChar ∧ c3 = fenceChar then some rest
    else dropThroughFence (c2 :: c3 :: rest)
  | _ => none

/-- Take input up to (excluding) the next three-backtick fence, or `none`
when no closing fence occurs. -/
def takeToFence : List Char → Option (List Char)
  | c1 :: c2 :: c3 :: rest =>
    if c1 = fenceChar ∧ c2 = fenceChar ∧ c3 = fenceChar then some []
    else
      match takeToFence (c2 :: c3 :: rest) with
      | none => none
      | some taken => some (c1 :: taken)
  | _ => none

/-- Drop an optional `json` language tag right after an opening fence. -/
def stripLangTag : List Char → List Char
  | 'j' :: 's' :: 'o' :: 'n' :: rest => rest
  | cs => cs

/-- The interior of the first fenced code block, language tag and leading
whitespace removed. -/
def fencedPayload (cs : List Char) : Option (List Char) :=
  match dropThroughFence cs with
  | none => none
  | some after => takeToFence (skipWs (stripLangTag after))

/-- The greedy balanced-brace region: from the first `{` to the last `}`
after it, or `none` when no such region exists. -/
def braceRegion (cs : List Char) : Option (List Char) :=
  let fromBrace := cs.dropWhile (fun c => c ≠ '{')
  let region := (fromBrace.reverse.dropWhile (fun c => c ≠ '}')).reverse
  if region = [] then none else some region

/-- Decode a character region as a JSON document and keep it only when it
is an object. -/
def decodeObj (cs : List Char) : Option Json :=
  match jsonDecode (trimChars cs) with
  | some (.obj fs) => some (.obj fs)
  | _ => none

/-- Modelled from the spec: `UnifiedAgent._extract_json` (§4.4).  The three
strategies in order, first success winning; `none` stands for the
ParseError raised when all fail. -/
def extract_json (text : String) : Option Json :=
  match decodeObj text.data with
  | some o => some o
  | none =>
    match (fencedPayload text.data).bind decodeObj with
    | some o => some o
    | none => (braceRegion text.data).bind decodeObj

/-! ## Lenient Review Parser

Modelled from the spec: `determinagent.parsers.parse_review` is missing
from the tree.  Spec §4.5: for a fixed ordered category list, the text is
scanned case-insensitively for the first line matching one of the accepted
surface syntaxes (`NAME: n - feedback`, `NAME: n/10 - feedback`,
`NAME (n/10): feedback`, with optional markdown-header, bold-markup or
emoji prefixes); the captured integer is clamped into [1,10] and the rest
of the line, syntax markers stripped, is the feedback.  A category not
found defaults to score 1 with a feedback string saying parsing failed for
it.  `min_score` is the minimum per-category score and `is_approved` is
true iff it reaches the caller-supplied threshold. -/

/-- The fixed ordered category list (named `REVIEW_CATEGORIES_LIST` in
`determinagent.parsers`; contents as exercised by the test suite). -/
def REVIEW_CATEGORIES_LIST : List String :=
  ["STRUCTURE", "GRAMMAR", "TECHNICAL_ACCURACY", "ENGAGEMENT",
   "ACTIONABILITY", "SEO", "FORMATTING", "DEPTH", "ORIGINALITY",
   "WORD_COUNT", "TITLE", "INTRO"]

structure CategoryScore where
  name : String
  score : Nat
  feedback : String
deriving DecidableEq, Repr

structure ReviewResult where
  scores : List CategoryScore
  overall_feedback : String
  min_score : Nat
  is_approved : Bool
deriving DecidableEq, Repr

/-- Split text into lines at newline characters. -/
def splitLines : List Char → List (List Char)
  | [] => [[]]
  | '\n' :: rest => [] :: splitLines rest
  | c :: rest =>
    match splitLines rest with
    | [] => [[c]]
    | l :: ls => (c :: l) :: ls

/-- Strip the optional syntax markers that may precede a category name on a
line: whitespace, markdown header hashes, check/cross emoji, bold stars. -/
def lineHead (cs : List Char) : List Char :=
  let cs := cs.dropWhile isWsChar
  let cs := cs.dropWhile (fun c => c = '#')
  let cs := cs.dropWhile isWsChar
  let cs := cs.dropWhile (fun c => c = '✅' || c = '❌')
  let cs := cs.dropWhile isWsChar
  cs.dropWhile (fun c => c = '*')

/-- Strip a case-insensitive occurrence of `pat` from the front of `cs`. -/
def stripCaseless : List Char → List Char → Option (List Char)
  | [], cs => some cs
  | _ :: _, [] => none
  | p :: ps, c :: cs =>
    if p.toLower = c.toLower then stripCaseless ps cs else none

/-- Trim and drop the ` - ` separator in front of the feedback text. -/
def cleanFeedback (cs : List Char) : List Char :=
  let cs := cs.dropWhile isWsChar
  let cs := match cs with
    | '-' :: rest => rest
    | _ => cs
  trimChars cs

/-- Match what follows a category name on a line: the `: n`, `: n/10` and
`(n/10):` score syntaxes (a closing bold marker allowed before them),
capturing the raw integer and the feedback remainder. -/
def scoreTail (cs : List Char) : Option (Nat × List Char) :=
  let cs := cs.dropWhile (fun c => c = '*')
  let cs := cs.dropWhile isWsChar
  match cs with
  | ':' :: rest =>
    let rest := rest.dropWhile isWsChar
    match splitDigits rest with
    | ([], _) => none
    | (ds, rest2) =>
      let rest3 := match rest2 with
        | '/' :: '1' :: '0' :: r => r
        | _ => rest2
      some (digitsVal ds, cleanFeedback rest3)
  | '(' :: rest =>
    let rest := rest.dropWhile isWsChar
    match splitDigits rest with
    | ([], _) => none
    | (ds, rest2) =>
      match rest2 with
      | '/' :: '1' :: '0' :: ')' :: r =>
        let r := match r with
          | ':' :: r2 => r2
          | _ => r
        some (digitsVal ds, cleanFeedback r)
      | _ => none
  | _ => none

/-- Match one line against one category, yielding the captured raw integer
and feedback when the line scores that category. -/
def matchCategoryLine (cat : List Char) (line : List Char) :
    Option (Nat × List Char) :=
  match stripCaseless cat (lineHead line) with
  | none => none
  | some rest => scoreTail rest

/-- The first line of `text` scoring category `cat`, as (raw integer,
feedback). -/
def findCategory (text : String) (cat : String) : Option (Nat × List Char) :=
  (splitLines text.data).findSome? (matchCategoryLine cat.data)

/-- Clamp a captured integer into [1,10]. -/
def clampScore (n : Nat) : Nat := max 1 (min 10 n)

/-- The feedback recorded for a category the parser could not find. -/
def PARSE_FAILED_FEEDBACK : String :=
  "Parsing failed for this category - defaulting to 1"

/-- The per-category score for one category of the fixed list. -/
def categoryResult (text : String) (cat : String) : CategoryScore :=
  match findCategory text cat with
  | some (n, fb) =>
    { name := cat, score := clampScore n, feedback := String.mk fb }
  | none =>
    { name := cat, score := 1, feedback := PARSE_FAILED_FEEDBACK }

/-- Whether `pat` occurs at the very front of the second list. -/
def startsWithChars : List Char → List Char → Bool
  | [], _ => true
  | _ :: _, [] => false
  | p :: ps, c :: cs => p = c && startsWithChars ps cs

/-- Drop input through the first occurrence of `pat`, returning what
follows, or `none` when `pat` does not occur. -/
def dropAfterSub (pat : List Char) : List Char → Option (List Char)
  | [] => none
  | c :: cs =>
    if startsWithChars pat (c :: cs) then some ((c :: cs).drop pat.length)
    else dropAfterSub pat cs

/-- Take input up to the first occurrence of `pat` (all of it when `pat`
does not occur). -/
def takeBeforeSub (pat : List Char) : List Char → List Char
  | [] => []
  | c :: cs =>
    if startsWithChars pat (c :: cs) then []
    else c :: takeBeforeSub pat cs

/-- Modelled from the spec: the overall-feedback capture of §4.5. -/
def overallFeedback (text : String) : String :=
  match dropAfterSub "OVERALL_FEEDBACK:".data text.data with
  | some rest => String.mk (trimChars (takeBeforeSub "APPROVAL".data rest))
  | none => ""

/-- Modelled from the spec: `determinagent.parsers.parse_review` (§4.5).
`threshold` is the caller-supplied `min_score` argument (default 8 in the
source). -/
def parse_review (text : String) (threshold : Nat) : ReviewResult :=
  let scores := REVIEW_CATEGORIES_LIST.map (categoryResult text)
  let minS := (scores.map (fun s => s.score)).foldr min 10
  { scores := scores,
    overall_feedback := overallFeedback text,
    min_score := minS,
    is_approved := decide (threshold ≤ minS) }

/-- The score recorded for category `cat` (0 when `cat` is not a known
category). -/
def scoreOf (r : ReviewResult) (cat : String) : Nat :=
  match r.scores.find? (fun s => s.name == cat) with
  | some s => s.score
  | none => 0

/-- The feedback recorded for category `cat` (empty when `cat` is not a
known category). -/
def feedbackOf (r : ReviewResult) (cat : String) : String :=
  match r.scores.find? (fun s => s.name == cat) with
  | some s => s.feedback
  | none => ""

/-! ## Helper lemmas -/

/-- The retry loop never runs more attempts than its budget allows. -/
theorem sendAux_attempts_le (fresh : Nat → String) (maxA : Nat) :
    ∀ (outcomes : List AttemptResult) (idx resets : Nat) (st : Session),
      idx < maxA →
      (sendAux fresh maxA outcomes idx resets st).attempts ≤ maxA := by
  intro outcomes
  induction outcomes with
  | nil =>
    intro idx resets st h
    simpa [sendAux] using h.le
  | cons o rest ih =>
    intro idx resets st h
    cases o with
    | success t =>
      simp only [sendAux]
      split_ifs with h1 h2
      · simpa using h
      · simpa using h
      · exact ih (idx + 1) resets st (by omega)
    | failure kind msg =>
      simp only [sendAux]
      split_ifs with h1 h2
      · simpa using h
      · exact ih (idx + 1) (resets + 1) _ (by omega)
      · exact ih (idx + 1) resets st (by omega)
    | unexpected msg =>
      simp only [sendAux]
      split_ifs with h1
      · simpa using h
      · exact ih (idx + 1) resets st (by omega)

/-- When every scripted outcome before the final one is retryable and the
budget runs out exactly at the final one, the retry loop surfaces the final
outcome's error. -/
theorem sendAux_exhaust (fresh : Nat → String) (maxA : Nat)
    (last : AttemptResult) (e : SendError)
    (he : finalError maxA last = some e) :
    ∀ (pre : List AttemptResult) (idx resets : Nat) (st : Session),
      idx + pre.length + 1 = maxA →
      (∀ o ∈ pre, isRetryable o = true) →
      (sendAux fresh maxA (pre ++ [last]) idx resets st).result = .error e := by
  intro pre
  induction pre with
  | nil =>
    intro idx resets st hlen _
    simp only [List.length_nil] at hlen
    cases last with
    | success t => simp [finalError] at he
    | failure kind msg =>
      simp only [finalError, Option.some.injEq] at he
      subst he
      simp [sendAux, show maxA ≤ idx + 1 by omega]
    | unexpected msg =>
      simp only [finalError, Option.some.injEq] at he
      subst he
      simp [sendAux, show maxA ≤ idx + 1 by omega]
  | cons o rest ih =>
    intro idx resets st hlen hall
    have hnl : ¬ maxA ≤ idx + 1 := by
      simp only [List.length_cons] at hlen
      omega
    have hlen' : idx + 1 + rest.length + 1 = maxA := by
      simp only [List.length_cons] at hlen
      omega
    have hall' : ∀ o ∈ rest, isRetryable o = true := by
      intro o' ho'
      exact hall o' (List.mem_cons_of_mem _ ho')
    cases o with
    | success t =>
      have ht : t = "" := by
        have := hall (.success t) (List.mem_cons_self _ _)
        simpa [isRetryable] using this
      subst ht
      simp only [List.cons_append, sendAux, ne_eq, not_true_eq_false,
        if_false, hnl, ite_false]
      exact ih (idx + 1) resets st hlen' hall'
    | failure kind msg =>
      by_cases hk : kind = ErrKind.sessionError
      · subst hk
        simp only [List.cons_append, sendAux, hnl, if_false, if_true]
        exact ih (idx + 1) (resets + 1) _ hlen' hall'
      · simp only [List.cons_append, sendAux, hnl, if_false, hk]
        exact ih (idx + 1) resets st hlen' hall'
    | unexpected msg =>
      simp only [List.cons_append, sendAux, hnl, if_false]
      exact ih (idx + 1) resets st hlen' hall'

/-- The retry loop invokes `save_exchange` exactly once when it returns a
response and never when it raises. -/
theorem sendAux_saves (fresh : Nat → String) (maxA : Nat) :
    ∀ (outcomes : List AttemptResult) (idx resets : Nat) (st : Session),
      (sendAux fresh maxA outcomes idx resets st).saves =
        match (sendAux fresh maxA outcomes idx resets st).result with
        | .ok _ => 1
        | .error _ => 0 := by
  intro outcomes
  induction outcomes with
  | nil => intro idx resets st; simp [sendAux]
  | cons o rest ih =>
    intro idx resets st
    cases o with
    | success t =>
      simp only [sendAux]
      split_ifs <;> first | rfl | exact ih (idx + 1) resets st
    | failure kind msg =>
      simp only [sendAux]
      split_ifs with h1 h2
      · rfl
      · exact ih (idx + 1) (resets + 1) _
      · exact ih (idx + 1) resets st
    | unexpected msg =>
      simp only [sendAux]
      split_ifs with h1
      · rfl
      · exact ih (idx + 1) resets st

/-- Both branches of `categoryResult` record the category's own name. -/
theorem categoryResult_name (text cat : String) :
    (categoryResult text cat).name = cat := by
  unfold categoryResult
  split <;> rfl

/-- Looking a known category up in the mapped score list yields that
category's own result. -/
theorem find_categoryResult (text : String) :
    ∀ (l : List String) (cat : String), cat ∈ l →
      (l.map (categoryResult text)).find? (fun s => s.name == cat) =
        some (categoryResult text cat) := by
  intro l
  induction l with
  | nil => intro cat h; simp at h
  | cons hd tl ih =>
    intro cat hmem
    by_cases hc : hd = cat
    · subst hc
      simp [List.find?_cons_of_pos, categoryResult_name]
    · have hne : ((categoryResult text hd).name == cat) = false := by
        simp [categoryResult_name, hc]
      rw [List.map_cons, List.find?_cons_of_neg _ (by simp [hne])]
      rcases List.mem_cons.mp hmem with rfl | htl
      · exact absurd rfl hc
      · exact ih cat htl

/-- A right fold by `min` is bounded by every list element. -/
theorem foldr_min_le : ∀ (l : List Nat) (a x : Nat), x ∈ l →
    l.foldr min a ≤ x := by
  intro l
  induction l with
  | nil => intro a x h; simp at h
  | cons hd tl ih =>
    intro a x hx
    rcases List.mem_cons.mp hx with rfl | hx'
    · exact min_le_left _ _
    · exact le_trans (min_le_right _ _) (ih a x hx')

/-- Clamped scores lie in [1,10]. -/
theorem clampScore_bounds (n : Nat) : 1 ≤ clampScore n ∧ clampScore n ≤ 10 := by
  unfold clampScore
  omega

/-! ## Claim theorems -/

/-- C1, counterexample: the claim's concrete example is false of the
three-branch parse rule it itself states.  When the `response` field is
absent the raw JSON text comes back unchanged, so the input
`{"text":"Some text"}` (no space after the colon) is returned verbatim and
is not the differently spaced string `{"text": "Some text"}` the claim
expects. -/
theorem C1_spec_example_fails :
    GeminiAdapter.parse_output "\x7b\"text\":\"Some text\"\x7d" =
      "\x7b\"text\":\"Some text\"\x7d" ∧
    GeminiAdapter.parse_output "\x7b\"text\":\"Some text\"\x7d" ≠
      "\x7b\"text\": \"Some text\"\x7d" := by
  constructor
  · decide
  · decide

/-- C1 (amended): Variant C's `parse_output` is the stated three-branch
function — a decoded object with a string `response` field yields that
field's value; a failed decode yields the raw input; a decoded object
without the field yields the raw input unchanged — and in particular
`parse_output '{"text": "Some text"}'` returns `'{"text": "Some text"}'`,
the raw JSON text unchanged. -/
theorem C1_parse_output_three_branch :
    (∀ s : String, jsonDecode s.data = none →
      GeminiAdapter.parse_output s = s) ∧
    (∀ (s : String) (fields : List (String × Json)),
      jsonDecode s.data = some (.obj fields) →
      lookupField fields "response" = none →
      GeminiAdapter.parse_output s = s) ∧
    (∀ (s v : String) (fields : List (String × Json)),
      jsonDecode s.data = some (.obj fields) →
      lookupField fields "response" = some (.str v) →
      GeminiAdapter.parse_output s = v) ∧
    GeminiAdapter.parse_output "\x7b\"response\": \"Hello World\"\x7d" =
      "Hello World" ∧
    GeminiAdapter.parse_output "Not JSON at all" = "Not JSON at all" ∧
    GeminiAdapter.parse_output "\x7b\"text\": \"Some text\"\x7d" =
      "\x7b\"text\": \"Some text\"\x7d" := by
  refine ⟨?_, ?_, ?_, by decide, by decide, by decide⟩
  · intro s h
    simp [GeminiAdapter.parse_output, h]
  · intro s fields h1 h2
    simp [GeminiAdapter.parse_output, h1, h2]
  · intro s v fields h1 h2
    simp [GeminiAdapter.parse_output, h1, h2]

/-- C1 witness: the missing-field branch applied at the test suite's
concrete input. -/
theorem C1_parse_output_three_branch_witness :
    GeminiAdapter.parse_output "\x7b\"text\": \"Some text\"\x7d" =
      "\x7b\"text\": \"Some text\"\x7d" :=
  C1_parse_output_three_branch.2.1 "\x7b\"text\": \"Some text\"\x7d"
    [("text", Json.str "Some text")] (by rfl) (by rfl)

/-- C2: with no explicit override, `get_session_flags` returns the
creation-mode pair `["--session-id", id]` for claude at call_count 0, the
resume-mode pair `["-r", id]` for claude at call_count ≥ 1, and the empty
list for every other provider at any call_count. -/
theorem C2_session_flags (id p : String) (n : Nat) :
    getSessionFlags ⟨"claude", id, 0⟩ none = ["--session-id", id] ∧
    (1 ≤ n → getSessionFlags ⟨"claude", id, n⟩ none = ["-r", id]) ∧
    (p ≠ "claude" → ∀ m : Nat, getSessionFlags ⟨p, id, m⟩ none = []) := by
  refine ⟨rfl, ?_, ?_⟩
  · intro hn
    have hz : (n == 0) = false := by
      simp only [beq_eq_false_iff_ne, ne_eq]
      omega
    simp [getSessionFlags, hz]
  · intro hp m
    simp [getSessionFlags, hp]

/-- C2 witness: the flag rule evaluated for claude at call counts 0 and 1
and for gemini. -/
theorem C2_session_flags_witness :
    getSessionFlags ⟨"claude", "test-uuid", 0⟩ none =
      ["--session-id", "test-uuid"] ∧
    getSessionFlags ⟨"claude", "test-uuid", 1⟩ none = ["-r", "test-uuid"] ∧
    getSessionFlags ⟨"gemini", "test-uuid", 1⟩ none = [] :=
  ⟨(C2_session_flags "test-uuid" "gemini" 1).1,
   (C2_session_flags "test-uuid" "gemini" 1).2.1 (by decide),
   (C2_session_flags "test-uuid" "gemini" 1).2.2 (by decide) 1⟩

/-- C10: `get_session_flags` is total on provider strings outside the four
known providers — it returns the empty flag list for any call_count and
any explicit override instead of raising. -/
theorem C10_unknown_provider_total (p id : String) (n : Nat)
    (ov : Option Bool)
    (hp : p ∉ (["claude", "copilot", "gemini", "codex"] : List String)) :
    getSessionFlags ⟨p, id, n⟩ ov = [] := by
  have hc : p ≠ "claude" := fun h => hp (by simp [h])
  simp [getSessionFlags, hc]

/-- C10 witness: the unknown provider of the test suite. -/
theorem C10_unknown_provider_total_witness :
    getSessionFlags ⟨"unknown", "test-uuid", 0⟩ none = [] :=
  C10_unknown_provider_total "unknown" "test-uuid" 0 none (by decide)

/-- C3: a classified SessionError inside `send` with retry budget left
makes the engine reset the owned Session (fresh id, zeroed counter) before
the next attempt — the loop continues from the reset state for any
continuation — and the call as a whole succeeds when the next attempt
succeeds, finishing in two attempts with the fresh session id. -/
theorem C3_session_error_recovery (fresh : Nat → String) (st : Session)
    (msg t : String) (mr : Nat) (rest : List AttemptResult)
    (hmr : 1 ≤ mr) (ht : t ≠ "") :
    send fresh (.failure .sessionError msg :: rest) mr st =
      sendAux fresh (mr + 1) rest 1 1 (resetSession st (fresh 0)) ∧
    (send fresh [.failure .sessionError msg, .success t] mr st).result =
      .ok t ∧
    (send fresh [.failure .sessionError msg, .success t] mr st).attempts = 2 ∧
    (send fresh [.failure .sessionError msg, .success t] mr st).session =
      saveExchange (resetSession st (fresh 0)) ∧
    (send fresh [.failure .sessionError msg, .success t] mr st).session.sessionId
      = fresh 0 ∧
    (send fresh [.failure .sessionError msg, .success t] mr st).session.callCount
      = 1 := by
  have hnl : ¬ mr + 1 ≤ 0 + 1 := by omega
  have hstep : ∀ rest' : List AttemptResult,
      send fresh (.failure .sessionError msg :: rest') mr st =
        sendAux fresh (mr + 1) rest' 1 1 (resetSession st (fresh 0)) := by
    intro rest'
    simp [send, sendAux, hnl]
  have hdone : sendAux fresh (mr + 1) [.success t] 1 1
      (resetSession st (fresh 0)) =
      { result := .ok t, attempts := 2, saves := 1,
        session := saveExchange (resetSession st (fresh 0)) } := by
    simp [sendAux, ht]
  refine ⟨hstep rest, ?_, ?_, ?_, ?_, ?_⟩ <;>
    rw [hstep, hdone] <;> simp [saveExchange, resetSession]

/-- C3 witness: the recovery scenario of the test suite — SessionError then
success with max_retries = 2, starting from a resumed copilot session. -/
theorem C3_session_error_recovery_witness :
    (send (fun n => "fresh-" ++ toString n)
      [.failure .sessionError "Session file is corrupted",
       .success "success response"] 2 ⟨"copilot", "orig", 1⟩).result =
      .ok "success response" ∧
    (send (fun n => "fresh-" ++ toString n)
      [.failure .sessionError "Session file is corrupted",
       .success "success response"] 2 ⟨"copilot", "orig", 1⟩).attempts = 2 ∧
    (send (fun n => "fresh-" ++ toString n)
      [.failure .sessionError "Session file is corrupted",
       .success "success response"] 2
      ⟨"copilot", "orig", 1⟩).session.sessionId = "fresh-0" ∧
    (send (fun n => "fresh-" ++ toString n)
      [.failure .sessionError "Session file is corrupted",
       .success "success response"] 2
      ⟨"copilot", "orig", 1⟩).session.callCount = 1 := by
  have h := C3_session_error_recovery (fun n => "fresh-" ++ toString n)
    ⟨"copilot", "orig", 1⟩ "Session file is corrupted" "success response" 2
    [.success "success response"] (by decide) (by decide)
  exact ⟨h.2.1, h.2.2.1, h.2.2.2.2.1, h.2.2.2.2.2⟩

/-- C4: an attempt that exits successfully but parses to empty text is a
retryable failure, not a success: with the script [empty success, real
text] and max_retries = 2, `send` returns the real text after exactly two
pipeline attempts. -/
theorem C4_empty_response_retry (fresh : Nat → String) (st : Session)
    (t : String) (ht : t ≠ "") :
    (send fresh [.success "", .success t] 2 st).result = .ok t ∧
    (send fresh [.success "", .success t] 2 st).attempts = 2 := by
  have h1 : send fresh [.success "", .success t] 2 st =
      sendAux fresh 3 [.success t] 1 0 st := by
    simp [send, sendAux]
  rw [h1]
  simp [sendAux, ht]

/-- C4 witness: the mocked sequence of the test suite. -/
theorem C4_empty_response_retry_witness :
    (send (fun n => "fresh-" ++ toString n)
      [.success "", .success "Actual response"] 2
      ⟨"claude", "abc", 0⟩).result = .ok "Actual response" ∧
    (send (fun n => "fresh-" ++ toString n)
      [.success "", .success "Actual response"] 2
      ⟨"claude", "abc", 0⟩).attempts = 2 :=
  C4_empty_response_retry (fun n => "fresh-" ++ toString n)
    ⟨"claude", "abc", 0⟩ "Actual response" (by decide)

/-- C8: `send` makes at most max_retries + 1 attempts; when the budget is
exhausted the last error is re-raised unchanged when it is a taxonomy
kind, and a non-taxonomy exception is wrapped in an error whose message
includes the attempt count (max_retries + 1). -/
theorem C8_retry_budget_and_error_surfacing :
    (∀ (fresh : Nat → String) (outcomes : List AttemptResult) (mr : Nat)
      (st : Session), (send fresh outcomes mr st).attempts ≤ mr + 1) ∧
    (∀ (fresh : Nat → String) (pre : List AttemptResult) (k : ErrKind)
      (msg : String) (mr : Nat) (st : Session),
      pre.length = mr → (∀ o ∈ pre, isRetryable o = true) →
      (send fresh (pre ++ [.failure k msg]) mr st).result =
        .error (.taxonomy k msg)) ∧
    (∀ (fresh : Nat → String) (pre : List AttemptResult) (msg : String)
      (mr : Nat) (st : Session),
      pre.length = mr → (∀ o ∈ pre, isRetryable o = true) →
      (send fresh (pre ++ [.unexpected msg]) mr st).result =
        .error (.wrapped ("Unexpected error after " ++ toString (mr + 1) ++
          " attempts: " ++ msg))) := by
  refine ⟨?_, ?_, ?_⟩
  · intro fresh outcomes mr st
    exact sendAux_attempts_le fresh (mr + 1) outcomes 0 0 st (by omega)
  · intro fresh pre k msg mr st hlen hall
    exact sendAux_exhaust fresh (mr + 1) (.failure k msg)
      (.taxonomy k msg) rfl pre 0 0 st (by omega) hall
  · intro fresh pre msg mr st hlen hall
    exact sendAux_exhaust fresh (mr + 1) (.unexpected msg)
      (.wrapped ("Unexpected error after " ++ toString (mr + 1) ++
        " attempts: " ++ msg)) rfl pre 0 0 st (by omega) hall

/-- C8 witness: an arbitrary exception failing all three attempts with
max_retries = 2 surfaces as a wrapped error naming 3 attempts, and the
attempt bound instantiated there. -/
theorem C8_retry_budget_and_error_surfacing_witness :
    (send (fun n => "fresh-" ++ toString n)
      [.unexpected "Crash!", .unexpected "Crash!", .unexpected "Crash!"] 2
      ⟨"claude", "abc", 0⟩).attempts ≤ 3 ∧
    (send (fun n => "fresh-" ++ toString n)
      [.unexpected "Crash!", .unexpected "Crash!", .unexpected "Crash!"] 2
      ⟨"claude", "abc", 0⟩).result =
      .error (.wrapped "Unexpected error after 3 attempts: Crash!") :=
  ⟨C8_retry_budget_and_error_surfacing.1 (fun n => "fresh-" ++ toString n)
    [.unexpected "Crash!", .unexpected "Crash!", .unexpected "Crash!"] 2
    ⟨"claude", "abc", 0⟩,
   C8_retry_budget_and_error_surfacing.2.2 (fun n => "fresh-" ++ toString n)
    [.unexpected "Crash!", .unexpected "Crash!"] "Crash!" 2
    ⟨"claude", "abc", 0⟩ (by decide) (by decide)⟩

/-- C9: `save_exchange` increments call_count by exactly one, a successful
`send` invokes it exactly once before returning, and a `send` that raises
never invokes it — no failed attempt increments the counter. -/
theorem C9_call_count_increment :
    (∀ s : Session, (saveExchange s).callCount = s.callCount + 1) ∧
    (∀ (fresh : Nat → String) (outcomes : List AttemptResult) (mr : Nat)
      (st : Session) (t : String),
      (send fresh outcomes mr st).result = .ok t →
      (send fresh outcomes mr st).saves = 1) ∧
    (∀ (fresh : Nat → String) (outcomes : List AttemptResult) (mr : Nat)
      (st : Session) (e : SendError),
      (send fresh outcomes mr st).result = .error e →
      (send fresh outcomes mr st).saves = 0) := by
  refine ⟨fun s => rfl, ?_, ?_⟩
  · intro fresh outcomes mr st t h
    have hs := sendAux_saves fresh (mr + 1) outcomes 0 0 st
    simp only [send] at h ⊢
    rw [hs, h]
  · intro fresh outcomes mr st e h
    have hs := sendAux_saves fresh (mr + 1) outcomes 0 0 st
    simp only [send] at h ⊢
    rw [hs, h]

/-- C9 witness: one successful exchange saves once; a failed call saves
nothing. -/
theorem C9_call_count_increment_witness :
    (saveExchange ⟨"claude", "abc", 0⟩).callCount = 1 ∧
    (send (fun n => "fresh-" ++ toString n) [.success "Hello, world!"] 2
      ⟨"claude", "abc", 0⟩).saves = 1 ∧
    (send (fun n => "fresh-" ++ toString n)
      [.failure .executionError "boom"] 0 ⟨"claude", "abc", 0⟩).saves = 0 :=
  ⟨C9_call_count_increment.1 ⟨"claude", "abc", 0⟩,
   C9_call_count_increment.2.1 (fun n => "fresh-" ++ toString n)
    [.success "Hello, world!"] 2 ⟨"claude", "abc", 0⟩ "Hello, world!" (by rfl),
   C9_call_count_increment.2.2 (fun n => "fresh-" ++ toString n)
    [.failure .executionError "boom"] 0 ⟨"claude", "abc", 0⟩
    (.taxonomy .executionError "boom") (by rfl)⟩

set_option maxRecDepth 4000

/-- C5: the extractor tries whole-text JSON, then a fenced code block, then
the greedy balanced-brace scan, first success winning; the greedy scan
captures the outermost object when braces nest (the nested test input
yields the whole object); a fenced payload is preferred over a bare
brace-scan match; and `none` (ParseError) results when all three fail. -/
theorem C5_extractor_strategy :
    (∀ (t : String) (o : Json), decodeObj t.data = some o →
      extract_json t = some o) ∧
    (∀ (t : String) (o : Json), decodeObj t.data = none →
      (fencedPayload t.data).bind decodeObj = some o →
      extract_json t = some o) ∧
    (∀ t : String, decodeObj t.data = none →
      (fencedPayload t.data).bind decodeObj = none →
      extract_json t = (braceRegion t.data).bind decodeObj) ∧
    extract_json "\x7b\"key\": \"value\"\x7d" =
      some (.obj [("key", .str "value")]) ∧
    extract_json "\n        Here is the analysis:\n        \x7b\n            \"category\": \"nested\",\n            \"data\": \x7b\n                \"value\": 123,\n                \"list\": [1, 2]\n            \x7d\n        \x7d\n        End of report.\n        " =
      some (.obj [("category", .str "nested"),
        ("data", .obj [("value", .num 123),
          ("list", .arr [.num 1, .num 2])])]) ∧
    extract_json "Result: \x7b\"a\": \x7b\"b\": 1\x7d\x7d" =
      some (.obj [("a", .obj [("b", .num 1)])]) ∧
    extract_json "x \x7b\"a\": 1\x7d y ```json\n\x7b\"b\": 2\x7d\n```" =
      some (.obj [("b", .num 2)]) ∧
    extract_json "No JSON here at all" = none ∧
    extract_json "text \x7b invalid json \x7d text" = none := by
  refine ⟨?_, ?_, ?_, by rfl, by rfl, by rfl, by rfl, by rfl, by rfl⟩
  · intro t o h
    simp [extract_json, h]
  · intro t o h1 h2
    simp [extract_json, h1, h2]
  · intro t h1 h2
    simp [extract_json, h1, h2]

/-- C5 witness: the fenced-block strategy applied at the markdown test
input, on which whole-text decoding fails. -/
theorem C5_extractor_strategy_witness :
    extract_json "```json\n\x7b\"key\": \"value\"\x7d\n```" =
      some (.obj [("key", .str "value")]) :=
  C5_extractor_strategy.2.1 "```json\n\x7b\"key\": \"value\"\x7d\n```"
    (.obj [("key", .str "value")]) (by rfl) (by rfl)

/-- C6: every category score produced by `parse_review` lies in [1,10]; in
particular a captured 15 is clamped to 10 and a captured 0 is clamped
to 1. -/
theorem C6_score_clamped :
    (∀ (text : String) (th : Nat) (s : CategoryScore),
      s ∈ (parse_review text th).scores → 1 ≤ s.score ∧ s.score ≤ 10) ∧
    scoreOf (parse_review "STRUCTURE: 15 - Amazing work!" 8) "STRUCTURE"
      = 10 ∧
    scoreOf (parse_review "STRUCTURE: 0 - Terrible!" 8) "STRUCTURE" = 1 := by
  refine ⟨?_, by rfl, by rfl⟩
  intro text th s hs
  simp only [parse_review] at hs
  obtain ⟨cat, _, rfl⟩ := List.mem_map.mp hs
  unfold categoryResult
  split
  · exact clampScore_bounds _
  · simp

/-- C6 witness: the clamping bound applied at a concrete score of
`parse_review` on empty input. -/
theorem C6_score_clamped_witness :
    1 ≤ (categoryResult "" "STRUCTURE").score ∧
    (categoryResult "" "STRUCTURE").score ≤ 10 :=
  C6_score_clamped.1 "" 8 (categoryResult "" "STRUCTURE") (by decide)

/-- C7: a category of the fixed list absent from the text defaults to
score 1 with the parse-failure feedback string, and `is_approved` is false
whenever any category's score — such defaults included — is below the
caller-supplied threshold. -/
theorem C7_missing_category_defaults :
    (∀ (text : String) (th : Nat) (cat : String),
      cat ∈ REVIEW_CATEGORIES_LIST → findCategory text cat = none →
      scoreOf (parse_review text th) cat = 1 ∧
      feedbackOf (parse_review text th) cat = PARSE_FAILED_FEEDBACK) ∧
    (∀ (text : String) (th : Nat) (s : CategoryScore),
      s ∈ (parse_review text th).scores → s.score < th →
      (parse_review text th).is_approved = false) := by
  constructor
  · intro text th cat hmem hnone
    have hfind := find_categoryResult text REVIEW_CATEGORIES_LIST cat hmem
    constructor
    · simp only [scoreOf, parse_review]
      rw [hfind]
      simp [categoryResult, hnone]
    · simp only [feedbackOf, parse_review]
      rw [hfind]
      simp [categoryResult, hnone]
  · intro text th s hs hlt
    have hs' : s.score ∈
        ((REVIEW_CATEGORIES_LIST.map (categoryResult text)).map
          (fun s => s.score)) := by
      simp only [parse_review] at hs
      exact List.mem_map_of_mem _ hs
    have hmin := foldr_min_le _ 10 s.score hs'
    simp only [parse_review, decide_eq_false_iff_not]
    omega

/-- C7 witness: ENGAGEMENT is absent from a two-line review, defaults to
score 1 with the parse-failure feedback, and blocks approval at
threshold 8. -/
theorem C7_missing_category_defaults_witness :
    scoreOf (parse_review "\nSTRUCTURE: 8 - Good\nGRAMMAR: 9 - Good\n" 8)
      "ENGAGEMENT" = 1 ∧
    feedbackOf (parse_review "\nSTRUCTURE: 8 - Good\nGRAMMAR: 9 - Good\n" 8)
      "ENGAGEMENT" = PARSE_FAILED_FEEDBACK ∧
    (parse_review "\nSTRUCTURE: 8 - Good\nGRAMMAR: 9 - Good\n" 8).is_approved
      = false :=
  ⟨(C7_missing_category_defaults.1 "\nSTRUCTURE: 8 - Good\nGRAMMAR: 9 - Good\n"
      8 "ENGAGEMENT" (by decide) (by rfl)).1,
   (C7_missing_category_defaults.1 "\nSTRUCTURE: 8 - Good\nGRAMMAR: 9 - Good\n"
      8 "ENGAGEMENT" (by decide) (by rfl)).2,
   C7_missing_category_defaults.2 "\nSTRUCTURE: 8 - Good\nGRAMMAR: 9 - Good\n"
      8 (categoryResult "\nSTRUCTURE: 8 - Good\nGRAMMAR: 9 - Good\n"
        "ENGAGEMENT") (by decide) (by decide)⟩

end Determinagent
